import Mathlib

/-!
Verification of the path/command admission engine of the mcp-server
repository (Go). The repository's tools (show_file, search_in_file,
write_file, execute_shell_command) gate every filesystem and process
operation on two predicates: path authorization (`ServerConfig.IsAllowed`,
consumed through `ServerConfig.IsPathAllowed`) and command admission
(`ExecuteShellTool.isCommandAllowed`).

The tool layer (internal/tools, cmd/mcp-server) is embedded directly from
the Go sources. The configuration package internal/config (ServerConfig,
IsPathAllowed, NewConfigFromEnv) is not among the repository files, so its
behavior is modelled from the specification; definitions carrying a
`Modelled from the spec:` doc comment follow the spec text, not Go code.

Paths are modelled as strings over their character lists; canonicalization
is the lexical collapse of `.` and `..` segments (Go path/filepath.Clean on
Unix). Symlink resolution is a filesystem effect outside this model.
-/

/-! ## Lexical path primitives -/

/-- Splitting a character list at a separator character, keeping empty pieces
(Go strings.Split semantics). -/
def splitOnCharAux (c : Char) : List Char → List Char → List (List Char)
  | cur, [] => [cur.reverse]
  | cur, x :: xs =>
    if x = c then cur.reverse :: splitOnCharAux c [] xs
    else splitOnCharAux c (x :: cur) xs

/-- Split a character list on a separator (Go strings.Split). -/
def splitOnChar (c : Char) (l : List Char) : List (List Char) :=
  splitOnCharAux c [] l

/-- Whether a character sequence denotes an absolute Unix path
(Go path/filepath.IsAbs: a leading separator). -/
def isAbsChars : List Char → Bool
  | '/' :: _ => true
  | _ => false

/-- The segment-collapsing loop of Go path/filepath.Clean: empty and `.`
segments are dropped; `..` pops the previous segment when one is available,
is dropped at the root of an absolute path, and is kept at the front of a
relative path. The accumulator holds the output segments in reverse. -/
def cleanSegs (abs : Bool) : List (List Char) → List (List Char) → List (List Char)
  | stack, [] => stack.reverse
  | stack, s :: rest =>
    if s = [] ∨ s = ['.'] then cleanSegs abs stack rest
    else if s = ['.', '.'] then
      match stack with
      | [] => if abs then cleanSegs abs [] rest else cleanSegs abs [['.', '.']] rest
      | t :: stack2 =>
        if t = ['.', '.'] then cleanSegs abs (s :: stack) rest
        else cleanSegs abs stack2 rest
    else cleanSegs abs (s :: stack) rest

/-- Rejoin segments with `/` separators. -/
def joinSegs : List (List Char) → List Char
  | [] => []
  | [s] => s
  | s :: rest => s ++ '/' :: joinSegs rest

/-- Go path/filepath.Clean (Unix): lexically collapse `.` and `..` segments
and repeated separators; an empty result is `.`. -/
def goClean (p : String) : String :=
  if p.data = [] then "."
  else
    let abs := isAbsChars p.data
    let segs := cleanSegs abs [] (splitOnChar '/' p.data)
    if abs then String.mk ('/' :: joinSegs segs)
    else if joinSegs segs = [] then "." else String.mk (joinSegs segs)

/-- Go path/filepath.Dir: everything up to and including the final separator,
then cleaned; a path with no separator has directory `.`. -/
def filepathDir (p : String) : String :=
  goClean (String.mk ((p.data.reverse.dropWhile (fun c => c ≠ '/')).reverse))

/-- Modelled from the spec: step 1 of the PathAuthorizer algorithm
(internal/config is not among the repository files). The requested path is
made absolute against the working directory when relative, then its `.` and
`..` segments are lexically collapsed. Symlink resolution, which the spec
scopes to platforms that support it, is outside this lexical model. -/
def canonicalize (cwd p : String) : String :=
  goClean (if isAbsChars p.data then p else cwd ++ "/" ++ p)

/-- Modelled from the spec: segment-boundary prefix matching of a configured
root against a canonical path — the root matches iff the path equals it or
extends it immediately past a separator. -/
def matchesList (r p : List Char) : Bool :=
  r == p || (r ++ ['/']).isPrefixOf p

/-- Segment-boundary matching on strings. -/
def matchesRoot (r p : String) : Bool :=
  matchesList r.data p.data

/-! ## The admission configuration and the path authorizer -/

/-- The verdict of the path authorizer: allowed, or denied with a reason. -/
inductive Verdict
  | allowed
  | denied (reason : String)
deriving DecidableEq

/-- The configuration snapshot consumed by the admission engine
(internal/config.ServerConfig as used by the tool sources: an allowed-path
list and a deny list). -/
structure ServerConfig where
  AllowedPaths : List String
  DenyListPaths : List String
deriving DecidableEq

/-- Modelled from the spec: the PathAuthorizer contract
IsAllowed(requestedPath) -> Verdict (internal/config is not among the
repository files). The canonical path is compared against every denied root
first — any deny match returns Denied immediately — then against the
allowed roots, an empty allowed list standing for exactly the startup
working directory. -/
def ServerConfig.IsAllowed (cfg : ServerConfig) (cwd p : String) : Verdict :=
  let canon := canonicalize cwd p
  if cfg.DenyListPaths.any (fun r => matchesRoot r canon) then
    Verdict.denied "path is in a denied location"
  else
    let roots := if cfg.AllowedPaths = [] then [cwd] else cfg.AllowedPaths
    if roots.any (fun r => matchesRoot r canon) then Verdict.allowed
    else Verdict.denied "path is not within an allowed location"

/-- The boolean form consumed at every tool call site
(config.IsPathAllowed in the Go sources). -/
def ServerConfig.IsPathAllowed (cfg : ServerConfig) (cwd p : String) : Bool :=
  cfg.IsAllowed cwd p = Verdict.allowed

/-! ## Command admission (internal/tools ExecuteShellTool, config-aware
revision) -/

/-- The static whitelist of bare command names from
ExecuteShellTool.isCommandAllowed (the literal allowedCommands map; a Go
map lookup of an absent key yields false). -/
def allowedCommands : List String :=
  ["ls", "find", "grep", "cat", "echo",
   "pwd", "cd", "mkdir", "rm", "cp", "mv",
   "touch", "head", "tail", "wc", "sort",
   "uniq", "cut", "tr", "sed", "awk",
   "ps", "top", "df", "du", "free",
   "which", "whereis", "whatis", "file",
   "zip", "unzip", "tar", "gzip", "gunzip"]

/-- Go strings.Contains for a one-character substring, as used with "/" and
"\\" in isCommandAllowed. -/
def containsChar (c : Char) (s : String) : Bool :=
  s.data.contains c

/-- ExecuteShellTool.isCommandAllowed: a token that is an absolute path or
contains a separator is judged by the path authorizer when a configuration
is present (the error return of IsPathAllowed is discarded at this call
site); with no configuration it falls through to the whitelist, as does
every bare name. -/
def ExecuteShellTool.isCommandAllowed (cfg : Option ServerConfig) (cwd command : String) : Bool :=
  if isAbsChars command.data || containsChar '/' command || containsChar '\\' command then
    match cfg with
    | some c => c.IsPathAllowed cwd command
    | none => allowedCommands.contains command
  else allowedCommands.contains command

/-- The arguments of the execute_shell_command tool. -/
structure ExecuteShellCommandArgs where
  Command : List String
  Timeout : Int
  WorkingDir : Option String

/-- The result struct of the execute_shell_command tool. -/
structure ExecuteShellCommandResult where
  Stdout : String
  Stderr : String
  ExitCode : Int
  Command : String
  Success : Bool
deriving DecidableEq

/-- ExecuteShellTool.createResponse. -/
def createResponse (stdout stderr : String) (exitCode : Int) (command : String) (success : Bool) : ExecuteShellCommandResult :=
  ⟨stdout, stderr, exitCode, command, success⟩

/-- What ExecuteShellTool.Execute does before any process exists: an error
response for an empty command, a structured pre-launch denial, or the
decision to create and start the process (everything past cmd.Start —
pipes, wait, timeout — is process I/O outside this model). -/
inductive ExecOutcome
  | errorResponse (msg : String)
  | preLaunchDenial (result : ExecuteShellCommandResult)
  | launch (argv : List String) (workingDir : Option String)
deriving DecidableEq

/-- The admission prefix of ExecuteShellTool.Execute: the empty-command
error, the isCommandAllowed test on the first token, and — when a working
directory is supplied and a configuration is present — the IsPathAllowed
test on the working directory, each denial returned as a structured result
before the process is created. -/
def ExecuteShellTool.preLaunch (cfg : Option ServerConfig) (cwd : String) (args : ExecuteShellCommandArgs) : ExecOutcome :=
  match args.Command with
  | [] => ExecOutcome.errorResponse "Empty command"
  | c0 :: _ =>
    if ¬ ExecuteShellTool.isCommandAllowed cfg cwd c0 then
      ExecOutcome.preLaunchDenial (createResponse ""
        ("Command '" ++ c0 ++ "' is not allowed for security reasons")
        (-1) (String.intercalate " " args.Command) false)
    else
      match args.WorkingDir, cfg with
      | some wd, some c =>
        if ¬ c.IsPathAllowed cwd wd then
          ExecOutcome.preLaunchDenial (createResponse ""
            "Working directory is not allowed by server configuration"
            (-1) (String.intercalate " " args.Command) false)
        else ExecOutcome.launch args.Command args.WorkingDir
      | _, _ => ExecOutcome.launch args.Command args.WorkingDir

/-! ## The file tools (internal/tools showfile, searchfile, writefile) -/

/-- A filesystem operation a tool performs; each tool model logs the
operations it has issued, so an empty log means no filesystem I/O. -/
inductive FsOp
  | statOp (path : String)
  | readFileOp (path : String)
  | openReadOp (path : String)
  | mkdirAllOp (path : String)
  | openWriteOp (path : String) (append : Bool)
  | writeStringOp (path : String) (content : String)
deriving DecidableEq

/-- The outcome of os.Stat: missing, failed, or a file/directory. -/
inductive StatRes
  | notExist
  | statError (msg : String)
  | statOk (isDir : Bool)

/-- The surrounding filesystem and regexp library, as an oracle: the tools
are deterministic given these answers. openRead returns the whole content a
scanner would stream; regexCompile returns a line-matching predicate. -/
structure FsOracle where
  stat : String → StatRes
  readFile : String → Except String String
  openRead : String → Except String String
  regexCompile : String → Except String (String → Bool)
  mkdirAll : String → Except String Unit
  openWrite : String → Bool → Except String Unit
  writeString : String → String → Except String Unit

/-- A tool response: utils.CreateSuccessResponse serializes a structured
result (denials included), utils.CreateErrorResponse is the protocol-level
error text. Every Execute in the sources returns a nil Go error, so no
exception alternative exists. -/
inductive ToolResp (α : Type)
  | structured (r : α)
  | errorText (msg : String)
deriving DecidableEq

/-- The arguments of the show_file tool. -/
structure ShowFileArgs where
  FilePath : String
  StartLine : Int
  NumLines : Option Int

/-- The result struct of the show_file tool (unset Go fields are zero). -/
structure ShowFileResult where
  Success : Bool
  Error : String
  Content : String
  LinesShown : Int
  TotalLines : Int
  StartLine : Int
  EndLine : Int
deriving DecidableEq

/-- ShowFileTool.Execute past the authorization gate: stat, directory
check, read, then the line-window arithmetic. A negative NumLines would
make the Go slice expression panic; the model clamps the window instead,
which no claim exercises. -/
def ShowFileTool.body (fs : FsOracle) (args : ShowFileArgs) : ToolResp ShowFileResult × List FsOp :=
  match fs.stat args.FilePath with
  | StatRes.statError e =>
    (ToolResp.errorText ("Error checking file: " ++ e), [FsOp.statOp args.FilePath])
  | StatRes.notExist =>
    (ToolResp.structured ⟨false, "File " ++ args.FilePath ++ " does not exist", "", 0, 0, 0, 0⟩,
     [FsOp.statOp args.FilePath])
  | StatRes.statOk true =>
    (ToolResp.structured ⟨false, args.FilePath ++ " is a directory, not a file", "", 0, 0, 0, 0⟩,
     [FsOp.statOp args.FilePath])
  | StatRes.statOk false =>
    match fs.readFile args.FilePath with
    | Except.error e =>
      (ToolResp.structured ⟨false, "Error reading file: " ++ e, "", 0, 0, 0, 0⟩,
       [FsOp.statOp args.FilePath, FsOp.readFileOp args.FilePath])
    | Except.ok content =>
      let lines := content.splitOn "\n"
      let totalLines : Int := lines.length
      let startLine := if args.StartLine < 1 then 1 else args.StartLine
      if startLine > totalLines then
        (ToolResp.structured ⟨false,
          "Start line " ++ toString startLine ++ " is beyond the file length (" ++
            toString totalLines ++ " lines)", "", 0, totalLines, 0, 0⟩,
         [FsOp.statOp args.FilePath, FsOp.readFileOp args.FilePath])
      else
        let startIndex := startLine - 1
        let endIndex := match args.NumLines with
          | none => totalLines
          | some n => min (startIndex + n) totalLines
        let selected := (lines.drop startIndex.toNat).take (endIndex - startIndex).toNat
        (ToolResp.structured ⟨true, "", String.intercalate "\n" selected,
          selected.length, totalLines, startLine, startIndex + selected.length + 1⟩,
         [FsOp.statOp args.FilePath, FsOp.readFileOp args.FilePath])

/-- ShowFileTool.Execute: the configuration gate in front of the body. -/
def ShowFileTool.Execute (cfg : Option ServerConfig) (cwd : String) (fs : FsOracle) (args : ShowFileArgs) : ToolResp ShowFileResult × List FsOp :=
  match cfg with
  | some c =>
    if c.IsPathAllowed cwd args.FilePath then ShowFileTool.body fs args
    else
      (ToolResp.structured ⟨false,
        "Access to this file path is not allowed by server configuration", "", 0, 0, 0, 0⟩, [])
  | none => ShowFileTool.body fs args

/-- The arguments of the search_in_file tool. -/
structure SearchInFileArgs where
  FilePath : String
  Pattern : String
  CaseSensitive : Bool
  MaxMatches : Int

/-- One match of the search_in_file tool. -/
structure MatchResult where
  LineNumber : Int
  Content : String
deriving DecidableEq

/-- The result struct of the search_in_file tool. -/
structure SearchInFileResult where
  Success : Bool
  Error : String
  Matches : List MatchResult
  MatchCount : Int
  Truncated : Bool
deriving DecidableEq

/-- The scanner loop of SearchFileTool.Execute: 1-based line numbers,
stopping once MaxMatches (when positive) matches are collected. -/
def scanLines (rx : String → Bool) (maxMatches : Int) : List String → Int → List MatchResult → List MatchResult
  | [], _, acc => acc.reverse
  | l :: rest, lineNum, acc =>
    if rx l then
      let acc2 := ⟨lineNum + 1, l⟩ :: acc
      if maxMatches > 0 && (acc2.length : Int) ≥ maxMatches then acc2.reverse
      else scanLines rx maxMatches rest (lineNum + 1) acc2
    else scanLines rx maxMatches rest (lineNum + 1) acc

/-- SearchFileTool.Execute past the authorization gate: stat (a missing
file and a stat error are distinguished), open, pattern compilation with
the (?i) prefix when case-insensitive, then the scan. -/
def SearchFileTool.body (fs : FsOracle) (args : SearchInFileArgs) : ToolResp SearchInFileResult × List FsOp :=
  match fs.stat args.FilePath with
  | StatRes.notExist =>
    (ToolResp.structured ⟨false, "File " ++ args.FilePath ++ " does not exist", [], 0, false⟩,
     [FsOp.statOp args.FilePath])
  | StatRes.statError e =>
    (ToolResp.errorText ("Error checking file: " ++ e), [FsOp.statOp args.FilePath])
  | StatRes.statOk _ =>
    match fs.openRead args.FilePath with
    | Except.error e =>
      (ToolResp.structured ⟨false, "Error opening file: " ++ e, [], 0, false⟩,
       [FsOp.statOp args.FilePath, FsOp.openReadOp args.FilePath])
    | Except.ok content =>
      let regexPattern := if args.CaseSensitive then args.Pattern else "(?i)" ++ args.Pattern
      match fs.regexCompile regexPattern with
      | Except.error e =>
        (ToolResp.structured ⟨false, "Invalid regular expression: " ++ e, [], 0, false⟩,
         [FsOp.statOp args.FilePath, FsOp.openReadOp args.FilePath])
      | Except.ok rx =>
        let found := scanLines rx args.MaxMatches (content.splitOn "\n") 0 []
        (ToolResp.structured ⟨true, "", found, found.length,
          args.MaxMatches > 0 && (found.length : Int) ≥ args.MaxMatches⟩,
         [FsOp.statOp args.FilePath, FsOp.openReadOp args.FilePath])

/-- SearchFileTool.Execute: the configuration gate in front of the body. -/
def SearchFileTool.Execute (cfg : Option ServerConfig) (cwd : String) (fs : FsOracle) (args : SearchInFileArgs) : ToolResp SearchInFileResult × List FsOp :=
  match cfg with
  | some c =>
    if c.IsPathAllowed cwd args.FilePath then SearchFileTool.body fs args
    else
      (ToolResp.structured ⟨false,
        "Access to this file path is not allowed by server configuration", [], 0, false⟩, [])
  | none => SearchFileTool.body fs args

/-- The arguments of the write_file tool. -/
structure WriteFileArgs where
  FilePath : String
  Content : String
  Mode : String

/-- The result struct of the write_file tool. -/
structure WriteFileResult where
  Success : Bool
  Error : String
deriving DecidableEq

/-- The open-and-write tail of WriteFileTool.Execute; append mirrors the
O_APPEND/O_TRUNC choice made from Mode. -/
def WriteFileTool.writePhase (fs : FsOracle) (args : WriteFileArgs) (app : Bool) (ops : List FsOp) : ToolResp WriteFileResult × List FsOp :=
  match fs.openWrite args.FilePath app with
  | Except.error e =>
    (ToolResp.structured ⟨false, "Error opening file: " ++ e⟩,
     ops ++ [FsOp.openWriteOp args.FilePath app])
  | Except.ok _ =>
    match fs.writeString args.FilePath args.Content with
    | Except.error e =>
      (ToolResp.structured ⟨false, "Error writing to file: " ++ e⟩,
       ops ++ [FsOp.openWriteOp args.FilePath app, FsOp.writeStringOp args.FilePath args.Content])
    | Except.ok _ =>
      (ToolResp.structured ⟨true, ""⟩,
       ops ++ [FsOp.openWriteOp args.FilePath app, FsOp.writeStringOp args.FilePath args.Content])

/-- The directory phase of WriteFileTool.Execute (config-aware revision):
when the parent directory is non-empty it is itself authorized before
MkdirAll runs; a parent denial is returned with no operation issued. -/
def WriteFileTool.dirPhase (cfg : Option ServerConfig) (cwd : String) (fs : FsOracle) (args : WriteFileArgs) : ToolResp WriteFileResult × List FsOp :=
  let app := args.Mode = "a"
  let dir := filepathDir args.FilePath
  if dir ≠ "" then
    match cfg with
    | some c =>
      if c.IsPathAllowed cwd dir then
        match fs.mkdirAll dir with
        | Except.error e =>
          (ToolResp.structured ⟨false, "Error creating directories: " ++ e⟩,
           [FsOp.mkdirAllOp dir])
        | Except.ok _ => WriteFileTool.writePhase fs args app [FsOp.mkdirAllOp dir]
      else
        (ToolResp.structured ⟨false,
          "Access to the parent directory is not allowed by server configuration"⟩, [])
    | none =>
      match fs.mkdirAll dir with
      | Except.error e =>
        (ToolResp.structured ⟨false, "Error creating directories: " ++ e⟩,
         [FsOp.mkdirAllOp dir])
      | Except.ok _ => WriteFileTool.writePhase fs args app [FsOp.mkdirAllOp dir]
  else WriteFileTool.writePhase fs args app []

/-- WriteFileTool.Execute (config-aware revision): the target-path gate,
then the directory phase, then the write. -/
def WriteFileTool.Execute (cfg : Option ServerConfig) (cwd : String) (fs : FsOracle) (args : WriteFileArgs) : ToolResp WriteFileResult × List FsOp :=
  match cfg with
  | some c =>
    if c.IsPathAllowed cwd args.FilePath then WriteFileTool.dirPhase cfg cwd fs args
    else
      (ToolResp.structured ⟨false,
        "Access to this file path is not allowed by server configuration"⟩, [])
  | none => WriteFileTool.dirPhase cfg cwd fs args

/-! ## Configuration construction (cmd/mcp-server/main.go over the
spec-modelled internal/config constructor) -/

/-- Go strings.Split on ":" for the colon-separated path lists. -/
def splitColon (s : String) : List String :=
  (splitOnChar ':' s.data).map String.mk

/-- The two environment variables the configuration reads. -/
structure EnvVars where
  allowedPaths : Option String
  deniedPaths : Option String

/-- An optional colon-separated list, or nothing. -/
def envList : Option String → List String
  | some s => splitColon s
  | none => []

/-- Modelled from the spec: the handful of conventional sensitive subpaths
(.git, .env, credential directories) the constructor always appends to the
deny list (internal/config is not among the repository files). -/
def sensitiveSubpaths : List String :=
  [".git", ".env", ".ssh", "credentials"]

/-- Modelled from the spec: the always-appended deny entries, one sensitive
subpath under each allowed root (the startup working directory standing in
when the allowed list is empty). -/
def sensitiveDenials (allowedRoots : List String) (cwd : String) : List String :=
  (if allowedRoots = [] then [cwd] else allowedRoots).flatMap
    (fun r => sensitiveSubpaths.map (fun s => r ++ "/" ++ s))

/-- Modelled from the spec: config.NewConfigFromEnv (internal/config is not
among the repository files) — the allowed and denied lists are read from
MCP_ALLOWED_PATHS and MCP_DENIED_PATHS, and the sensitive subpath denials
are appended to whatever deny list the environment supplied. -/
def NewConfigFromEnv (cwd : String) (env : EnvVars) : ServerConfig :=
  { AllowedPaths := envList env.allowedPaths,
    DenyListPaths := envList env.deniedPaths ++ sensitiveDenials (envList env.allowedPaths) cwd }

/-- createServerConfig from cmd/mcp-server/main.go: the environment-based
configuration, each list then wholly replaced by the corresponding CLI flag
when that flag is non-empty. -/
def createServerConfig (cwd : String) (env : EnvVars) (allowedPathsFlag deniedPathsFlag : String) : ServerConfig :=
  let cfg := NewConfigFromEnv cwd env
  let cfg2 := if allowedPathsFlag = "" then cfg
    else { cfg with AllowedPaths := splitColon allowedPathsFlag }
  if deniedPathsFlag = "" then cfg2
  else { cfg2 with DenyListPaths := splitColon deniedPathsFlag }

/-- A closed oracle for concrete witnesses: every operation reports a
closed-world failure, which no denial path ever consults. -/
def emptyFs : FsOracle where
  stat _ := StatRes.notExist
  readFile _ := Except.error "closed"
  openRead _ := Except.error "closed"
  regexCompile _ := Except.error "closed"
  mkdirAll _ := Except.error "closed"
  openWrite _ _ := Except.error "closed"
  writeString _ _ := Except.error "closed"

/-! ## Claims about the path authorizer -/

/-- C1: Deny always wins — whenever any entry of the denied list matches the
canonical form of the requested path, the path authorizer returns the
denied-location verdict, whatever the allowed list contains; the denied list
is decided before the allowed list is consulted. -/
theorem c1_deny_always_wins (cwd : String) (cfg : ServerConfig) (p : String)
    (h : cfg.DenyListPaths.any (fun r => matchesRoot r (canonicalize cwd p)) = true) :
    cfg.IsAllowed cwd p = Verdict.denied "path is in a denied location" := by
  unfold ServerConfig.IsAllowed
  simp [h]

/-- Witness for C1, at the spec's scenario: allowed = [/tmp/ws],
denied = [/tmp/ws/secret], path /tmp/ws/secret/file — the path lies under
both lists and the verdict is the denied-location one. -/
theorem c1_deny_always_wins_w :
    (ServerConfig.mk ["/tmp/ws"] ["/tmp/ws/secret"]).DenyListPaths.any
      (fun r => matchesRoot r (canonicalize "/home/u" "/tmp/ws/secret/file")) = true
    ∧ ServerConfig.IsAllowed ⟨["/tmp/ws"], ["/tmp/ws/secret"]⟩ "/home/u" "/tmp/ws/secret/file"
      = Verdict.denied "path is in a denied location" :=
  ⟨by decide, c1_deny_always_wins "/home/u" ⟨["/tmp/ws"], ["/tmp/ws/secret"]⟩ "/tmp/ws/secret/file" (by decide)⟩

/-- C2: Segment-boundary matching — a root matches a canonical path exactly
when the path equals the root or extends it immediately past a separator;
in particular /home/user never matches /home/user2-prefixed paths, although
plain string-prefix comparison would accept them. -/
theorem c2_segment_boundary :
    (∀ R P : String, matchesRoot R P = true ↔
      P.data = R.data ∨ ∃ rest, P.data = R.data ++ '/' :: rest)
    ∧ (∀ s : String, matchesRoot "/home/user" ("/home/user2" ++ s) = false)
    ∧ "/home/user".data.isPrefixOf "/home/user2/file".data = true
    ∧ matchesRoot "/home/user" "/home/user2/file" = false := by
  refine ⟨?_, ?_, by decide, by decide⟩
  · intro R P
    unfold matchesRoot matchesList
    rw [Bool.or_eq_true]
    constructor
    · rintro (h | h)
      · exact Or.inl (eq_of_beq h).symm
      · obtain ⟨t, ht⟩ := List.isPrefixOf_iff_prefix.mp h
        exact Or.inr ⟨t, by rw [← ht]; simp⟩
    · rintro (h | ⟨rest, hr⟩)
      · exact Or.inl (beq_of_eq h.symm)
      · refine Or.inr (List.isPrefixOf_iff_prefix.mpr ⟨rest, ?_⟩)
        rw [hr]; simp
  · intro s
    unfold matchesRoot matchesList
    rw [Bool.or_eq_false_iff]
    constructor
    · rw [beq_eq_false_iff_ne]
      intro h
      simp [String.data_append] at h
    · rw [Bool.eq_false_iff]
      simp [String.data_append, List.isPrefixOf]

/-- Witness for C2, instantiated at a concrete root and path. -/
theorem c2_segment_boundary_w :
    (matchesRoot "/home/user" "/home/user/docs" = true ↔
      "/home/user/docs".data = "/home/user".data
      ∨ ∃ rest, "/home/user/docs".data = "/home/user".data ++ '/' :: rest)
    ∧ matchesRoot "/home/user" ("/home/user2" ++ "/file") = false :=
  ⟨c2_segment_boundary.1 "/home/user" "/home/user/docs",
   c2_segment_boundary.2.1 "/file"⟩

/-- C3: Traversal segments are resolved before judging — whenever the
allowed list is non-empty and no allowed root matches the lexically
canonicalized path, authorization fails; the spec's traversal example
/tmp/ws/../../etc/passwd canonicalizes to /etc/passwd and is denied even
though the literal string starts with the allowed root /tmp/ws. -/
theorem c3_traversal_resolved :
    (∀ (cwd : String) (cfg : ServerConfig) (p : String), cfg.AllowedPaths ≠ [] →
      (∀ r ∈ cfg.AllowedPaths, matchesRoot r (canonicalize cwd p) = false) →
      cfg.IsPathAllowed cwd p = false)
    ∧ canonicalize "/home/u" "/tmp/ws/../../etc/passwd" = "/etc/passwd"
    ∧ ServerConfig.IsAllowed ⟨["/tmp/ws"], []⟩ "/home/u" "/tmp/ws/../../etc/passwd"
      = Verdict.denied "path is not within an allowed location" := by
  refine ⟨?_, by decide, by decide⟩
  intro cwd cfg p hne h
  unfold ServerConfig.IsPathAllowed ServerConfig.IsAllowed
  have hany : cfg.AllowedPaths.any (fun r => matchesRoot r (canonicalize cwd p)) = false := by
    rw [List.any_eq_false]
    intro r hr
    simpa using h r hr
  cases hd : cfg.DenyListPaths.any (fun r => matchesRoot r (canonicalize cwd p)) with
  | true => simp [hd]
  | false => simp [hd, hne, hany]

/-- Witness for C3, at the spec's traversal scenario. -/
theorem c3_traversal_resolved_w :
    (ServerConfig.mk ["/tmp/ws"] []).AllowedPaths ≠ []
    ∧ (∀ r ∈ (ServerConfig.mk ["/tmp/ws"] []).AllowedPaths,
        matchesRoot r (canonicalize "/home/u" "/tmp/ws/../../etc/passwd") = false)
    ∧ ServerConfig.IsPathAllowed ⟨["/tmp/ws"], []⟩ "/home/u" "/tmp/ws/../../etc/passwd" = false :=
  ⟨by decide, by decide,
   c3_traversal_resolved.1 "/home/u" ⟨["/tmp/ws"], []⟩ "/tmp/ws/../../etc/passwd"
     (by decide) (by decide)⟩

/-- C8: An empty allowed list defaults to the startup working directory —
the authorizer behaves exactly as if the allowed list were [cwd], so under
the default configuration paths under the startup directory are allowed and
paths outside it are denied. -/
theorem c8_empty_allowed_defaults_to_cwd :
    (∀ (cwd : String) (denied : List String) (p : String),
      ServerConfig.IsAllowed ⟨[], denied⟩ cwd p = ServerConfig.IsAllowed ⟨[cwd], denied⟩ cwd p)
    ∧ ServerConfig.IsAllowed ⟨[], []⟩ "/home/user/project" "/home/user/project/file.txt"
      = Verdict.allowed
    ∧ ServerConfig.IsAllowed ⟨[], []⟩ "/home/user/project" "/home/user/other/file.txt"
      = Verdict.denied "path is not within an allowed location" :=
  ⟨fun cwd denied p => by simp [ServerConfig.IsAllowed], by decide, by decide⟩

/-- Witness for C8, instantiated at the spec's default-configuration
scenario. -/
theorem c8_empty_allowed_defaults_to_cwd_w :
    ServerConfig.IsAllowed ⟨[], []⟩ "/home/user/project" "/home/user/project/file.txt"
      = ServerConfig.IsAllowed ⟨["/home/user/project"], []⟩ "/home/user/project" "/home/user/project/file.txt" :=
  c8_empty_allowed_defaults_to_cwd.1 "/home/user/project" [] "/home/user/project/file.txt"

/-! ## Claims about command admission and the execute tool -/

/-- C4: Path-qualified command bypass — with a configuration present, a
token that is an absolute path or contains a path separator receives
exactly the verdict of the path authorizer; the static whitelist plays no
part in the result. -/
theorem c4_path_qualified_bypass (c : ServerConfig) (cwd command : String)
    (h : (isAbsChars command.data || containsChar '/' command || containsChar '\\' command) = true) :
    ExecuteShellTool.isCommandAllowed (some c) cwd command = c.IsPathAllowed cwd command := by
  unfold ExecuteShellTool.isCommandAllowed
  simp [h]

/-- Witness for C4, at the spec's scenario 4: /tmp/ws/bin/tool is judged by
the path authorizer — admitted when /tmp/ws is allowed, refused when only
/opt is. -/
theorem c4_path_qualified_bypass_w :
    ((isAbsChars "/tmp/ws/bin/tool".data || containsChar '/' "/tmp/ws/bin/tool"
        || containsChar '\\' "/tmp/ws/bin/tool") = true)
    ∧ ExecuteShellTool.isCommandAllowed (some ⟨["/tmp/ws"], []⟩) "/cwd" "/tmp/ws/bin/tool" = true
    ∧ ExecuteShellTool.isCommandAllowed (some ⟨["/opt"], []⟩) "/cwd" "/tmp/ws/bin/tool" = false :=
  ⟨by decide,
   (c4_path_qualified_bypass ⟨["/tmp/ws"], []⟩ "/cwd" "/tmp/ws/bin/tool" (by decide)).trans (by decide),
   (c4_path_qualified_bypass ⟨["/opt"], []⟩ "/cwd" "/tmp/ws/bin/tool" (by decide)).trans (by decide)⟩

/-- C5: The bare-name whitelist is exact and fail-closed — a token with no
path separator is admitted exactly when it is literally a member of the
static whitelist, whatever the configuration; absence yields false, never
an error. -/
theorem c5_bare_name_whitelist (cfg : Option ServerConfig) (cwd command : String)
    (h : (isAbsChars command.data || containsChar '/' command || containsChar '\\' command) = false) :
    ExecuteShellTool.isCommandAllowed cfg cwd command = allowedCommands.contains command := by
  unfold ExecuteShellTool.isCommandAllowed
  simp [h]

/-- Witness for C5: curl is not whitelisted, Ls is not ls (case matters),
and ls itself is admitted. -/
theorem c5_bare_name_whitelist_w :
    ((isAbsChars "curl".data || containsChar '/' "curl" || containsChar '\\' "curl") = false)
    ∧ ExecuteShellTool.isCommandAllowed none "/cwd" "curl" = false
    ∧ ExecuteShellTool.isCommandAllowed none "/cwd" "Ls" = false
    ∧ ExecuteShellTool.isCommandAllowed none "/cwd" "ls" = true :=
  ⟨by decide,
   (c5_bare_name_whitelist none "/cwd" "curl" (by decide)).trans (by decide),
   (c5_bare_name_whitelist none "/cwd" "Ls" (by decide)).trans (by decide),
   (c5_bare_name_whitelist none "/cwd" "ls" (by decide)).trans (by decide)⟩

/-- C6: Process launch is gated on both checks — with a configuration
present and a non-empty command, a refused first token produces the
structured command denial, an admitted token with a refused working
directory produces the structured working-directory denial, and a launch
can only be reached when the token is admitted and every supplied working
directory passed the path authorizer. -/
theorem c6_launch_gated (c : ServerConfig) (cwd : String) (args : ExecuteShellCommandArgs)
    (c0 : String) (rest : List String) (hcmd : args.Command = c0 :: rest) :
    (ExecuteShellTool.isCommandAllowed (some c) cwd c0 = false →
      ExecuteShellTool.preLaunch (some c) cwd args = ExecOutcome.preLaunchDenial
        (createResponse "" ("Command '" ++ c0 ++ "' is not allowed for security reasons")
          (-1) (String.intercalate " " args.Command) false))
    ∧ (∀ wd, args.WorkingDir = some wd →
        ExecuteShellTool.isCommandAllowed (some c) cwd c0 = true →
        c.IsPathAllowed cwd wd = false →
        ExecuteShellTool.preLaunch (some c) cwd args = ExecOutcome.preLaunchDenial
          (createResponse "" "Working directory is not allowed by server configuration"
            (-1) (String.intercalate " " args.Command) false))
    ∧ (∀ argv owd, ExecuteShellTool.preLaunch (some c) cwd args = ExecOutcome.launch argv owd →
        ExecuteShellTool.isCommandAllowed (some c) cwd c0 = true
        ∧ ∀ wd, args.WorkingDir = some wd → c.IsPathAllowed cwd wd = true) := by
  unfold ExecuteShellTool.preLaunch
  refine ⟨?_, ?_, ?_⟩
  · intro h
    rw [hcmd]
    simp [h]
  · intro wd hwd h hpa
    rw [hcmd]
    simp [h, hwd, hpa]
  · intro argv owd hl
    rw [hcmd] at hl
    by_cases h : ExecuteShellTool.isCommandAllowed (some c) cwd c0 = true
    · refine ⟨h, ?_⟩
      intro wd hwd
      rw [hwd] at hl
      by_cases hpa : c.IsPathAllowed cwd wd = true
      · exact hpa
      · simp [h, Bool.eq_false_iff.mpr hpa] at hl
    · rw [Bool.not_eq_true] at h
      simp [h] at hl

/-- Witness for C6: with allowed = [/tmp/ws], the non-whitelisted token
curl is denied before any launch. -/
theorem c6_launch_gated_w :
    ExecuteShellTool.isCommandAllowed (some ⟨["/tmp/ws"], []⟩) "/cwd" "curl" = false
    ∧ ExecuteShellTool.preLaunch (some ⟨["/tmp/ws"], []⟩) "/cwd" ⟨["curl"], 0, none⟩
      = ExecOutcome.preLaunchDenial (createResponse ""
          "Command 'curl' is not allowed for security reasons" (-1)
          (String.intercalate " " ["curl"]) false) :=
  ⟨by decide,
   (c6_launch_gated ⟨["/tmp/ws"], []⟩ "/cwd" ⟨["curl"], 0, none⟩ "curl" [] rfl).1 (by decide)⟩

/-! ## Claims about the file tools and configuration construction -/

/-- Go Clean never returns the empty string: an empty input is `.`, an
absolute result keeps its leading separator, and an empty relative result
is `.` as well. -/
theorem goClean_ne_empty (p : String) : goClean p ≠ "" := by
  unfold goClean
  split
  · intro h
    exact absurd h (by decide)
  · dsimp only
    split
    · intro h
      exact absurd (congrArg String.data h) (by simp)
    · split
      · intro h
        exact absurd h (by decide)
      · next hne =>
        intro h
        exact hne (by simpa using congrArg String.data h)

/-- The parent directory computed by filepath.Dir is never the empty
string, so the dir-phase guard of write_file always runs. -/
theorem filepathDir_ne_empty (p : String) : filepathDir p ≠ "" :=
  goClean_ne_empty _

/-- C7: Denial is a value and performs no I/O — when the requested path
fails the path authorizer, each of show_file, search_in_file and write_file
returns the structured denial result carrying the reason through the normal
success-response channel (no protocol-level fault, no Go error) and issues
no filesystem operation. -/
theorem c7_denial_is_value_no_io (c : ServerConfig) (cwd p : String) (fs : FsOracle)
    (h : c.IsPathAllowed cwd p = false) :
    (∀ sl nl, ShowFileTool.Execute (some c) cwd fs ⟨p, sl, nl⟩ =
      (ToolResp.structured ⟨false,
        "Access to this file path is not allowed by server configuration", "", 0, 0, 0, 0⟩, []))
    ∧ (∀ pat cs mm, SearchFileTool.Execute (some c) cwd fs ⟨p, pat, cs, mm⟩ =
      (ToolResp.structured ⟨false,
        "Access to this file path is not allowed by server configuration", [], 0, false⟩, []))
    ∧ (∀ content mode, WriteFileTool.Execute (some c) cwd fs ⟨p, content, mode⟩ =
      (ToolResp.structured ⟨false,
        "Access to this file path is not allowed by server configuration"⟩, [])) := by
  refine ⟨fun sl nl => ?_, fun pat cs mm => ?_, fun content mode => ?_⟩
  · unfold ShowFileTool.Execute
    simp [h]
  · unfold SearchFileTool.Execute
    simp [h]
  · unfold WriteFileTool.Execute
    simp [h]

/-- Witness for C7: /etc/passwd is outside the allowed root /tmp/ws, and
all three tools return the structured denial with an empty operation log. -/
theorem c7_denial_is_value_no_io_w :
    ServerConfig.IsPathAllowed ⟨["/tmp/ws"], []⟩ "/cwd" "/etc/passwd" = false
    ∧ ShowFileTool.Execute (some ⟨["/tmp/ws"], []⟩) "/cwd" emptyFs ⟨"/etc/passwd", 1, none⟩ =
      (ToolResp.structured ⟨false,
        "Access to this file path is not allowed by server configuration", "", 0, 0, 0, 0⟩, [])
    ∧ SearchFileTool.Execute (some ⟨["/tmp/ws"], []⟩) "/cwd" emptyFs ⟨"/etc/passwd", "x", true, 0⟩ =
      (ToolResp.structured ⟨false,
        "Access to this file path is not allowed by server configuration", [], 0, false⟩, [])
    ∧ WriteFileTool.Execute (some ⟨["/tmp/ws"], []⟩) "/cwd" emptyFs ⟨"/etc/passwd", "data", "w"⟩ =
      (ToolResp.structured ⟨false,
        "Access to this file path is not allowed by server configuration"⟩, []) :=
  ⟨by decide,
   (c7_denial_is_value_no_io ⟨["/tmp/ws"], []⟩ "/cwd" "/etc/passwd" emptyFs (by decide)).1 1 none,
   (c7_denial_is_value_no_io ⟨["/tmp/ws"], []⟩ "/cwd" "/etc/passwd" emptyFs (by decide)).2.1 "x" true 0,
   (c7_denial_is_value_no_io ⟨["/tmp/ws"], []⟩ "/cwd" "/etc/passwd" emptyFs (by decide)).2.2 "data" "w"⟩

/-- C10: write_file also authorizes the parent directory — with a
configuration present, a target that passes the path check whose parent
directory fails it yields the structured parent-directory denial with an
empty operation log: no directory is created, nothing is opened and
nothing is written. -/
theorem c10_write_parent_dir_gate (c : ServerConfig) (cwd : String) (fs : FsOracle)
    (p content mode : String)
    (h1 : c.IsPathAllowed cwd p = true)
    (h2 : c.IsPathAllowed cwd (filepathDir p) = false) :
    WriteFileTool.Execute (some c) cwd fs ⟨p, content, mode⟩ =
      (ToolResp.structured ⟨false,
        "Access to the parent directory is not allowed by server configuration"⟩, []) := by
  unfold WriteFileTool.Execute WriteFileTool.dirPhase
  simp [h1, h2, filepathDir_ne_empty p]

/-- Witness for C10: the allowed root /tmp/ws itself passes the path check
while its parent /tmp does not, and write_file denies without touching the
filesystem. -/
theorem c10_write_parent_dir_gate_w :
    ServerConfig.IsPathAllowed ⟨["/tmp/ws"], []⟩ "/cwd" "/tmp/ws" = true
    ∧ ServerConfig.IsPathAllowed ⟨["/tmp/ws"], []⟩ "/cwd" (filepathDir "/tmp/ws") = false
    ∧ WriteFileTool.Execute (some ⟨["/tmp/ws"], []⟩) "/cwd" emptyFs ⟨"/tmp/ws", "x", "w"⟩ =
      (ToolResp.structured ⟨false,
        "Access to the parent directory is not allowed by server configuration"⟩, []) :=
  ⟨by decide, by decide,
   c10_write_parent_dir_gate ⟨["/tmp/ws"], []⟩ "/cwd" emptyFs "/tmp/ws" "x" "w"
     (by decide) (by decide)⟩

/-- C9 counterexample: a caller-supplied CLI deny list removes the
sensitive denials — with MCP_ALLOWED_PATHS=/repo and the flag
--deny-paths=/x, the constructed deny list is exactly [/x] and
/repo/.git/config is allowed, falsifying the claim that every constructed
configuration keeps the sensitive subpaths denied. -/
theorem c9_cli_deny_flag_removes_sensitive :
    ServerConfig.IsPathAllowed (createServerConfig "/cwd" ⟨some "/repo", none⟩ "" "/x")
      "/cwd" "/repo/.git/config" = true
    ∧ (createServerConfig "/cwd" ⟨some "/repo", none⟩ "" "/x").DenyListPaths = ["/x"] :=
  ⟨by decide, by decide⟩

/-- C9 amended: configurations built without the CLI deny flag always carry
the sensitive subpath denials appended after any environment-supplied deny
list — so with allowed = [/repo] from the environment and no deny
configuration, /repo/.git/config is denied; a non-empty --deny-paths flag,
however, replaces the deny list wholesale. -/
theorem c9_sensitive_denials_env_only :
    (∀ (cwd : String) (env : EnvVars) (aFlag : String),
      (createServerConfig cwd env aFlag "").DenyListPaths
        = envList env.deniedPaths ++ sensitiveDenials (envList env.allowedPaths) cwd)
    ∧ ServerConfig.IsPathAllowed (createServerConfig "/cwd" ⟨some "/repo", none⟩ "" "")
      "/cwd" "/repo/.git/config" = false := by
  refine ⟨?_, by decide⟩
  intro cwd env aFlag
  unfold createServerConfig NewConfigFromEnv
  by_cases h : aFlag = "" <;> simp [h]

/-- Witness for C9 amended, at the default environment. -/
theorem c9_sensitive_denials_env_only_w :
    (createServerConfig "/cwd" ⟨none, none⟩ "" "").DenyListPaths
      = envList none ++ sensitiveDenials (envList none) "/cwd" :=
  c9_sensitive_denials_env_only.1 "/cwd" ⟨none, none⟩ ""
